import Mathlib

/-!
Verification development for pubsubc (src/main.go): a CLI that reads
PUBSUB_PROJECT1, PUBSUB_PROJECT2, ... environment variables of the form
"projectID,topic:sub1:sub2,topic2", creates the topics and subscriptions
against a pub/sub service, and prints a summary of what it finds there.

The external pub/sub client is modelled by an oracle (`Service`) deciding
the outcome of each administrative call; the underlying service error text
and the %q quoting of fmt.Errorf are abstracted, messages keep their literal
skeleton.  Standard output is modelled as the list of strings produced by
the individual fmt.Printf calls (each with its explicit newline characters);
standard error as the list of messages handed to fatalf (the os.Args[0]
prefix fatalf adds is abstracted).  The environment is modelled as a list of
values for PUBSUB_PROJECT1, PUBSUB_PROJECT2, ...; os.Getenv of an index past
the end of the list yields "" exactly as an unset variable does.
-/

namespace Pubsubc

/-- Split a character list at every occurrence of the separator, keeping
empty pieces, with acc the (reversed) piece being accumulated. -/
def splitOnCharAux (sep : Char) : List Char → List Char → List (List Char)
  | [], acc => [acc.reverse]
  | c :: cs, acc =>
    if c = sep then acc.reverse :: splitOnCharAux sep cs []
    else splitOnCharAux sep cs (c :: acc)

/-- Go strings.Split(s, sep) for a one-character separator: always returns
at least one piece, and an empty input yields one empty piece. -/
def strSplitOn (sep : Char) (s : String) : List String :=
  (splitOnCharAux sep s.data []).map String.mk

/-- Go strings.TrimSpace: drop leading and trailing whitespace (the exotic
Unicode space classes Go also trims are abstracted away). -/
def strTrim (s : String) : String :=
  String.mk (((s.data.dropWhile Char.isWhitespace).reverse.dropWhile Char.isWhitespace).reverse)

/-- Character-level body of strings.Replace(s, "|", ":", 1). -/
def replaceFirstPipeChars : List Char → List Char
  | [] => []
  | c :: cs => if c = '|' then ':' :: cs else c :: replaceFirstPipeChars cs

/-- Go strings.Replace(s, "|", ":", 1): replace the first occurrence of the
pipe character with a colon (src/main.go line 141). -/
def replaceFirstPipe (s : String) : String :=
  String.mk (replaceFirstPipeChars s.data)

/-- Subscription token decoder (src/main.go lines 137-144): split on plus;
the trimmed first part is the subscription id; when a second part exists it
is trimmed and its first pipe is replaced by a colon to form the push
endpoint; otherwise the push endpoint is empty. -/
def decodeSubscription (s : String) : String × String :=
  match strSplitOn '+' s with
  | [] => ("", "")
  | [a] => (strTrim a, "")
  | a :: b :: _ => (strTrim a, replaceFirstPipe (strTrim b))

/-- Topic name of one comma-separated topic definition: the part before the
first colon (src/main.go line 212, topicParts[0]). -/
def topicName (part : String) : String :=
  (strSplitOn ':' part).headD ""

/-- Subscription tokens of one topic definition: everything after the topic
name in the colon-separated split (src/main.go line 212, topicParts[1:]). -/
def topicSubs (part : String) : List String :=
  (strSplitOn ':' part).tail

/-- Go map assignment `topics[k] = v` on an association list: replace the
binding when the key is present, append it otherwise. -/
def insertTopic (ts : List (String × List String)) (k : String) (v : List String) :
    List (String × List String) :=
  match ts with
  | [] => [(k, v)]
  | (k2, v2) :: rest => if k2 = k then (k, v) :: rest else (k2, v2) :: insertTopic rest k v

/-- Go map lookup on the association list model. -/
def lookupTopic (ts : List (String × List String)) (k : String) : Option (List String) :=
  match ts with
  | [] => none
  | (k2, v) :: rest => if k2 = k then some v else lookupTopic rest k

/-- One iteration of the topic-definition loop (src/main.go lines 210-213):
split the definition on colons and assign name -> subscription tokens. -/
def parseTopicPart (ts : List (String × List String)) (part : String) :
    List (String × List String) :=
  insertTopic ts (topicName part) (topicSubs part)

/-- Config parser (src/main.go lines 202-213): split the environment value
on commas; fewer than two segments is a configuration error; otherwise the
first segment is the project id and each remaining segment is a topic
definition entered into the topics map. -/
def parseEnv (env : String) : Option (String × List (String × List String)) :=
  let parts := strSplitOn ',' env
  if parts.length < 2 then none
  else some (parts.headD "", parts.tail.foldl parseTopicPart [])

/-- Oracle for the external pub/sub administrative client: which calls
succeed, and what the listing calls return (none models an error). -/
structure Service where
  newClientOK : String → Bool
  createTopicOK : String → String → Bool
  createSubOK : String → String → String → String → Bool
  reportClientOK : String → Bool
  listTopicsRes : String → Option (List String)
  listSubsRes : String → String → Option (List String)
  configRes : String → String → Option String

/-- Administrative calls issued to the external service.  The client API
also offers deletes; the program never issues one, which the delete
constructors make expressible. -/
inductive Op where
  | connect (projectID : String)
  | createTopic (projectID topicID : String)
  | createPushSub (projectID subscriptionID topicID endPointURL : String)
  | createPullSub (projectID subscriptionID topicID : String)
  | deleteTopic (projectID topicID : String)
  | deleteSub (projectID subscriptionID : String)
deriving DecidableEq, Repr

/-- Whether an issued call succeeds under the oracle. -/
def opOK (svc : Service) : Op → Bool
  | .connect p => svc.newClientOK p
  | .createTopic p t => svc.createTopicOK p t
  | .createPushSub p s t url => svc.createSubOK p s t url
  | .createPullSub p s t => svc.createSubOK p s t ""
  | .deleteTopic _ _ => true
  | .deleteSub _ _ => true

/-- Whether a call is a compensating delete. -/
def Op.isDelete : Op → Bool
  | .deleteTopic _ _ => true
  | .deleteSub _ _ => true
  | _ => false

/-- The single CreateSubscription call a subscription token determines
(src/main.go lines 145-163): push with the http scheme prepended when the
decoded endpoint is nonempty, pull otherwise. -/
def subOpOf (projectID topicID : String) (s : String) : Op :=
  let d := decodeSubscription s
  if d.2 ≠ "" then Op.createPushSub projectID d.1 topicID ("http://" ++ d.2)
  else Op.createPullSub projectID d.1 topicID

/-- Subscription-creation loop of create (src/main.go lines 136-164):
returns the debug output, the calls issued in order, and the error that
aborted the loop, if any. -/
def createSubsOps (svc : Service) (dbg : Bool) (projectID topicID : String) :
    List String → List String × List Op × Option String
  | [] => ([], [], none)
  | s :: rest =>
    let d := decodeSubscription s
    if d.2 ≠ "" then
      let endPointURL := "http://" ++ d.2
      let dbgOut := if dbg then
        ["    Creating subscription " ++ d.1 ++ " - endpoint " ++ endPointURL ++ "\n"] else []
      if svc.createSubOK projectID d.1 topicID endPointURL then
        let r := createSubsOps svc dbg projectID topicID rest
        (dbgOut ++ r.1, Op.createPushSub projectID d.1 topicID endPointURL :: r.2.1, r.2.2)
      else
        (dbgOut, [Op.createPushSub projectID d.1 topicID endPointURL],
          some ("Unable to create push subscription " ++ d.1 ++ " on topic " ++ topicID ++
            " for project " ++ projectID ++ " using push endpoint " ++ d.2))
    else
      let dbgOut := if dbg then ["    Creating subscription " ++ d.1 ++ "\n"] else []
      if svc.createSubOK projectID d.1 topicID "" then
        let r := createSubsOps svc dbg projectID topicID rest
        (dbgOut ++ r.1, Op.createPullSub projectID d.1 topicID :: r.2.1, r.2.2)
      else
        (dbgOut, [Op.createPullSub projectID d.1 topicID],
          some ("Unable to create subscription " ++ d.1 ++ " on topic " ++ topicID ++
            " for project " ++ projectID))

/-- Topic-creation loop of create (src/main.go lines 129-165). -/
def createTopicsOps (svc : Service) (dbg : Bool) (projectID : String) :
    List (String × List String) → List String × List Op × Option String
  | [] => ([], [], none)
  | (topicID, subscriptions) :: rest =>
    let dbgOut := if dbg then ["  Creating topic " ++ topicID ++ "\n"] else []
    if svc.createTopicOK projectID topicID then
      let rs := createSubsOps svc dbg projectID topicID subscriptions
      match rs.2.2 with
      | some m => (dbgOut ++ rs.1, Op.createTopic projectID topicID :: rs.2.1, some m)
      | none =>
        let rt := createTopicsOps svc dbg projectID rest
        (dbgOut ++ rs.1 ++ rt.1, Op.createTopic projectID topicID :: rs.2.1 ++ rt.2.1, rt.2.2)
    else
      (dbgOut, [Op.createTopic projectID topicID],
        some ("Unable to create topic " ++ topicID ++ " for project " ++ projectID))

/-- The create function (src/main.go lines 120-168): connect a client, then
create every topic and its subscriptions, stopping at the first error. -/
def create (svc : Service) (dbg : Bool) (projectID : String)
    (topics : List (String × List String)) : List String × List Op × Option String :=
  if svc.newClientOK projectID then
    let dbgOut := if dbg then ["Client connected with project ID " ++ projectID ++ "\n"] else []
    let r := createTopicsOps svc dbg projectID topics
    (dbgOut ++ r.1, Op.connect projectID :: r.2.1, r.2.2)
  else
    ([], [Op.connect projectID], some ("Unable to create client to project " ++ projectID))

/-- Inner subscription loop of displayResult (src/main.go lines 70-76): for
each subscription of the list, fetch its config and print one line. -/
def printSubsInner (svc : Service) (projectID : String) :
    List String → List String × Option String
  | [] => ([], none)
  | s :: rest =>
    match svc.configRes projectID s with
    | none => ([], some "Failed to get subscription config")
    | some endpoint =>
      let line := "  Subscription: " ++ s ++ " - Endpoint: " ++ endpoint ++ "\n"
      let r := printSubsInner svc projectID rest
      (line :: r.1, r.2)

/-- Outer subscription loop of displayResult (src/main.go lines 69-79): the
shadowed inner loop reruns over the whole subscription list once per outer
element, then a debug line is printed for the outer element. -/
def printSubsOuter (svc : Service) (dbg : Bool) (projectID : String)
    (subscriptions : List String) : List String → List String × Option String
  | [] => ([], none)
  | s :: rest =>
    let ri := printSubsInner svc projectID subscriptions
    match ri.2 with
    | some m => (ri.1, some m)
    | none =>
      let dbgOut := if dbg then ["  Subscription: " ++ s ++ "\n\n"] else []
      let ro := printSubsOuter svc dbg projectID subscriptions rest
      (ri.1 ++ dbgOut ++ ro.1, ro.2)

/-- Topic loop of displayResult (src/main.go lines 61-80). -/
def displayTopics (svc : Service) (dbg : Bool) (projectID : String) :
    List String → List String × Option String
  | [] => ([], none)
  | t :: rest =>
    match svc.listSubsRes projectID t with
    | none => ([], some "Failed to list subscriptions")
    | some subscriptions =>
      let dbgOut := if dbg then ["Topic: " ++ t ++ "\n\n"] else []
      let rs := printSubsOuter svc dbg projectID subscriptions subscriptions
      match rs.2 with
      | some m => (dbgOut ++ rs.1, some m)
      | none =>
        let rt := displayTopics svc dbg projectID rest
        (dbgOut ++ rs.1 ++ rt.1, rt.2)

/-- displayResult (src/main.go lines 47-81): connect a fresh client - a
failure there RETURNS SILENTLY (line 51) - then list every topic and print
its subscriptions; listing failures are fatal.  Returns the stdout chunks,
the calls issued, and the fatal message, if any. -/
def displayResult (svc : Service) (dbg : Bool) (projectID : String) :
    List String × List Op × Option String :=
  if svc.reportClientOK projectID then
    match svc.listTopicsRes projectID with
    | none => ([], [Op.connect projectID], some "Failed to list topics")
    | some topicIDs =>
      let r := displayTopics svc dbg projectID topicIDs
      (r.1, [Op.connect projectID], r.2)
  else
    ([], [Op.connect projectID], none)

/-- The usage text printed by flag.Usage (src/main.go lines 172-175); the
flag defaults listing is abstracted into the single string. -/
def usageText : String :=
  "Usage: env PUBSUB_PROJECT1=project1,topic1,topic2:subscription1,topic3:subscription2+enpoint1 pubsubc\n"

/-- The configuration-error message for index i (src/main.go line 205). -/
def configErrMsg (i : Nat) : String :=
  "PUBSUB_PROJECT" ++ toString i ++ ": Expected at least 1 topic to be defined"

/-- Observable outcome of a run: stdout chunks, stderr messages, exit code,
and the administrative calls issued to the external service. -/
structure RunResult where
  stdout : List String
  stderr : List String
  exitCode : Nat
  ops : List Op
deriving DecidableEq, Repr

/-- The environment-variable loop of main (src/main.go lines 188-221),
with i the index of the head variable.  An empty value stops the scan
(usage and exit 1 when it is the first); otherwise the value is parsed,
provisioned and reported, and the loop recurses on the next index. -/
def mainLoop (svc : Service) (dbg : Bool) : Nat → List String → RunResult
  | i, [] => if i = 1 then ⟨[usageText], [], 1, []⟩ else ⟨[], [], 0, []⟩
  | i, env :: rest =>
    if env = "" then
      if i = 1 then ⟨[usageText], [], 1, []⟩ else ⟨[], [], 0, []⟩
    else
      match parseEnv env with
      | none => ⟨[], [configErrMsg i], 1, []⟩
      | some (projectID, topics) =>
        match create svc dbg projectID topics with
        | (out, ops, some m) => ⟨out, [m], 1, ops⟩
        | (out, ops, none) =>
          match displayResult svc dbg projectID with
          | (rout, rops, some m) => ⟨out ++ rout, [m], 1, ops ++ rops⟩
          | (rout, rops, none) =>
            let r := mainLoop svc dbg (i + 1) rest
            ⟨out ++ rout ++ r.stdout, r.stderr, r.exitCode, ops ++ rops ++ r.ops⟩

/-- Whole program on an environment (src/main.go main, lines 170-222),
after flag handling: the loop starts at index 1. -/
def runMain (svc : Service) (dbg : Bool) (envs : List String) : RunResult :=
  mainLoop svc dbg 1 envs

/-- A service on which every call succeeds and every listing is empty. -/
def allOKService : Service where
  newClientOK := fun _ => true
  createTopicOK := fun _ _ => true
  createSubOK := fun _ _ _ _ => true
  reportClientOK := fun _ => true
  listTopicsRes := fun _ => some []
  listSubsRes := fun _ _ => some []
  configRes := fun _ _ => some ""

/-- A service on which only the reporting-side client creation fails. -/
def noReportService : Service :=
  { allOKService with reportClientOK := fun _ => false }

/-- A service on which every CreateTopic call fails. -/
def topicFailService : Service :=
  { allOKService with createTopicOK := fun _ _ => false }

/-- A service reporting one topic with two subscriptions. -/
def twoSubsService : Service :=
  { allOKService with
      listTopicsRes := fun _ => some ["t"]
      listSubsRes := fun _ _ => some ["s1", "s2"] }

/-- Standard output one successfully processed environment value produces:
the provisioner's output followed by the reporter's output. -/
def stepOut (svc : Service) (dbg : Bool) (env : String) : List String :=
  match parseEnv env with
  | none => []
  | some (p, ts) => (create svc dbg p ts).1 ++ (displayResult svc dbg p).1

/-- Administrative calls one successfully processed environment value
issues: the provisioner's, then the reporter's. -/
def stepOps (svc : Service) (dbg : Bool) (env : String) : List Op :=
  match parseEnv env with
  | none => []
  | some (p, ts) => (create svc dbg p ts).2.1 ++ (displayResult svc dbg p).2.1

/-- Whether one environment value is processed without any fatal error:
nonempty, parses, provisions and reports without error. -/
def stepOKb (svc : Service) (dbg : Bool) (env : String) : Bool :=
  if env = "" then false
  else
    match parseEnv env with
    | none => false
    | some (p, ts) =>
      (create svc dbg p ts).2.2.isNone && (displayResult svc dbg p).2.2.isNone

theorem lookup_insert_self (ts : List (String × List String)) (k : String) (v : List String) :
    lookupTopic (insertTopic ts k v) k = some v := by
  induction ts with
  | nil => simp [insertTopic, lookupTopic]
  | cons h2 rest ih =>
    obtain ⟨k2, v2⟩ := h2
    by_cases hk : k2 = k
    · simp [insertTopic, lookupTopic, hk]
    · simp [insertTopic, lookupTopic, hk, ih]

theorem lookup_insert_of_ne (ts : List (String × List String)) (k q : String)
    (v : List String) (h : k ≠ q) :
    lookupTopic (insertTopic ts k v) q = lookupTopic ts q := by
  induction ts with
  | nil => simp [insertTopic, lookupTopic, h]
  | cons h2 rest ih =>
    obtain ⟨k2, v2⟩ := h2
    by_cases hk : k2 = k
    · subst hk; simp [insertTopic, lookupTopic, h]
    · simp [insertTopic, lookupTopic, hk, ih]

theorem lookup_foldl_of_not_mem (parts : List String) (ts : List (String × List String))
    (k : String) (h : k ∉ parts.map topicName) :
    lookupTopic (parts.foldl parseTopicPart ts) k = lookupTopic ts k := by
  induction parts generalizing ts with
  | nil => simp
  | cons q rest ih =>
    simp only [List.map_cons, List.mem_cons, not_or] at h
    simp only [List.foldl_cons]
    rw [ih (parseTopicPart ts q) h.2]
    exact lookup_insert_of_ne ts (topicName q) k (topicSubs q) (fun he => h.1 he.symm)

theorem lookup_foldl_of_mem (parts : List String) (ts : List (String × List String))
    (part : String) (hmem : part ∈ parts) (hnodup : (parts.map topicName).Nodup) :
    lookupTopic (parts.foldl parseTopicPart ts) (topicName part) = some (topicSubs part) := by
  induction parts generalizing ts with
  | nil => cases hmem
  | cons q rest ih =>
    simp only [List.map_cons, List.nodup_cons] at hnodup
    rcases List.mem_cons.mp hmem with heq | hrest
    · subst heq
      simp only [List.foldl_cons]
      rw [lookup_foldl_of_not_mem rest (parseTopicPart ts part) (topicName part) hnodup.1]
      exact lookup_insert_self ts (topicName part) (topicSubs part)
    · simp only [List.foldl_cons]
      exact ih (parseTopicPart ts q) hrest hnodup.2

theorem append_ne_empty_left (s t : String) (h : s ≠ "") : s ++ t ≠ "" := by
  intro hc
  apply h
  cases s with
  | mk a =>
  cases t with
  | mk b =>
  have hd : a ++ b = ([] : List Char) := congrArg String.data hc
  have ha : a = [] := (List.append_eq_nil.mp hd).1
  subst ha
  rfl

/-- Claim C1: the Config Parser splits the environment value on commas,
takes the first element as the project id, and maps each remaining topic
definition's name (the part before the first colon) to its list of
subscription tokens (the remaining colon-separated segments, possibly
empty). -/
theorem config_parser_spec (env p : String) (tparts : List String)
    (hsplit : strSplitOn ',' env = p :: tparts) (hne : tparts ≠ [])
    (hnodup : (tparts.map topicName).Nodup) :
    ∃ ts, parseEnv env = some (p, ts) ∧
      ∀ part ∈ tparts, lookupTopic ts (topicName part) = some (topicSubs part) := by
  refine ⟨tparts.foldl parseTopicPart [], ?_, ?_⟩
  · unfold parseEnv
    rw [hsplit]
    simp only [List.length_cons, List.headD_cons, List.tail_cons]
    have hlen : tparts.length ≠ 0 := fun h0 => hne (List.eq_nil_of_length_eq_zero h0)
    rw [if_neg (by omega)]
  · intro part hp
    exact lookup_foldl_of_mem tparts [] part hp hnodup

theorem config_parser_spec_witness :
    ∃ ts, parseEnv "p,t1:s1,t2" = some ("p", ts) ∧
      ∀ part ∈ ["t1:s1", "t2"], lookupTopic ts (topicName part) = some (topicSubs part) :=
  config_parser_spec "p,t1:s1,t2" "p" ["t1:s1", "t2"] (by decide) (by decide) (by decide)

/-- Claim C2: a nonempty environment value whose comma split has fewer than
two segments makes the program print the configuration error to standard
error and exit with status 1 before any client, topic or subscription is
created. -/
theorem config_error_exits (svc : Service) (dbg : Bool) (i : Nat) (env : String)
    (rest : List String) (hne : env ≠ "") (hlen : (strSplitOn ',' env).length < 2) :
    mainLoop svc dbg i (env :: rest) = ⟨[], [configErrMsg i], 1, []⟩ := by
  have hp : parseEnv env = none := by
    unfold parseEnv
    simp [hlen]
  simp [mainLoop, hne, hp]

theorem config_error_exits_witness :
    mainLoop allOKService false 1 ["p"] = ⟨[], [configErrMsg 1], 1, []⟩ :=
  config_error_exits allOKService false 1 "p" [] (by decide) (by decide)

/-- Claim C3: the subscription decoder splits on plus, trims the first part
into the subscription id, and, when a second part exists, trims it and
replaces only its first pipe with a colon to form the push endpoint; a
token without a plus decodes to an empty push endpoint. -/
theorem decode_subscription_spec :
    (∀ s a, strSplitOn '+' s = [a] → decodeSubscription s = (strTrim a, "")) ∧
    (∀ s a b rest2, strSplitOn '+' s = a :: b :: rest2 →
      decodeSubscription s = (strTrim a, replaceFirstPipe (strTrim b))) ∧
    decodeSubscription "name+host|port" = ("name", "host:port") ∧
    decodeSubscription "n+h|p|q" = ("n", "h:p|q") ∧
    decodeSubscription "plain" = ("plain", "") := by
  refine ⟨?_, ?_, by decide, by decide, by decide⟩
  · intro s a h
    unfold decodeSubscription
    rw [h]
  · intro s a b rest2 h
    unfold decodeSubscription
    rw [h]

theorem decode_subscription_spec_witness :
    decodeSubscription "x" = (strTrim "x", "") ∧
    decodeSubscription "a+b" = (strTrim "a", replaceFirstPipe (strTrim "b")) :=
  ⟨decode_subscription_spec.1 "x" "x" (by decide),
   decode_subscription_spec.2.1 "a+b" "a" "b" [] (by decide)⟩

/-- Claim C4: when every CreateSubscription call succeeds, the provisioner
issues exactly one CreateSubscription call per decoded subscription token,
push with the http scheme prepended when the decoded endpoint is nonempty
and pull when it is empty, and reports no error. -/
theorem provisioner_one_call_per_subscription (svc : Service) (dbg : Bool)
    (projectID topicID : String) (subs : List String)
    (h : ∀ s ∈ subs, opOK svc (subOpOf projectID topicID s) = true) :
    (createSubsOps svc dbg projectID topicID subs).2.1 =
      subs.map (subOpOf projectID topicID) ∧
    (createSubsOps svc dbg projectID topicID subs).2.2 = none := by
  induction subs with
  | nil => simp [createSubsOps]
  | cons s rest ih =>
    have hs := h s (List.mem_cons_self s rest)
    obtain ⟨ih1, ih2⟩ := ih (fun x hx => h x (List.mem_cons_of_mem s hx))
    by_cases hep : (decodeSubscription s).2 = ""
    · have hsub : subOpOf projectID topicID s =
          Op.createPullSub projectID (decodeSubscription s).1 topicID := by
        simp [subOpOf, hep]
      rw [hsub] at hs
      simp only [opOK] at hs
      refine ⟨?_, ?_⟩
      · simp [createSubsOps, hep, hs, ih1, hsub]
      · simp [createSubsOps, hep, hs, ih2]
    · have hsub : subOpOf projectID topicID s =
          Op.createPushSub projectID (decodeSubscription s).1 topicID
            ("http://" ++ (decodeSubscription s).2) := by
        simp [subOpOf, hep]
      rw [hsub] at hs
      simp only [opOK] at hs
      refine ⟨?_, ?_⟩
      · simp [createSubsOps, hep, hs, ih1, hsub]
      · simp [createSubsOps, hep, hs, ih2]

theorem provisioner_one_call_per_subscription_witness :
    (createSubsOps allOKService false "demo" "orders" ["billing", "shipping+svc|8080"]).2.1 =
      ["billing", "shipping+svc|8080"].map (subOpOf "demo" "orders") ∧
    (createSubsOps allOKService false "demo" "orders" ["billing", "shipping+svc|8080"]).2.2 =
      none :=
  provisioner_one_call_per_subscription allOKService false "demo" "orders"
    ["billing", "shipping+svc|8080"] (by decide)

/-- Counterexample to claim C5: on the environment value
"demo,orders:billing,orders:shipping+svc|8080" the run never issues a
CreateSubscription call for the pull subscription billing, although it
finishes with exit code 0. -/
theorem repeated_topic_not_accumulated :
    Op.createPullSub "demo" "billing" "orders" ∉
      (runMain allOKService false ["demo,orders:billing,orders:shipping+svc|8080"]).ops ∧
    (runMain allOKService false ["demo,orders:billing,orders:shipping+svc|8080"]).exitCode
      = 0 := by
  decide

/-- Claim C5 amended: a repeated topic name REPLACES the earlier definition
in the topics map, so the run creates topic orders with only the push
subscription shipping targeting http://svc:8080; billing is never
created. -/
theorem repeated_topic_replaces :
    parseEnv "demo,orders:billing,orders:shipping+svc|8080" =
      some ("demo", [("orders", ["shipping+svc|8080"])]) ∧
    (runMain allOKService false ["demo,orders:billing,orders:shipping+svc|8080"]).ops =
      [Op.connect "demo", Op.createTopic "demo" "orders",
       Op.createPushSub "demo" "shipping" "orders" "http://svc:8080",
       Op.connect "demo"] := by
  decide

/-- Counterexample to claim C6: when the reporting-side client creation
fails, the process neither prints a message nor exits with status 1 - it
silently goes on to provision the next project and ends with exit code 0. -/
theorem report_connect_error_not_fatal :
    runMain noReportService false ["p,t", "q,u"] =
      ⟨[], [], 0,
       [Op.connect "p", Op.createTopic "p" "t", Op.connect "p",
        Op.connect "q", Op.createTopic "q" "u", Op.connect "q"]⟩ := by
  decide

/-- Claim C6 amended: a provisioning error (client connect, topic create or
subscription create) and a reporting listing error each print their message
and exit with status 1 without touching any later project, but a failure to
connect the reporting-side client is silently ignored and the loop goes on
with the next project. -/
theorem error_propagation (svc : Service) (dbg : Bool) (i : Nat) (env : String)
    (rest : List String) (projectID : String) (topics : List (String × List String))
    (hne : env ≠ "") (hparse : parseEnv env = some (projectID, topics)) :
    (∀ out ops m, create svc dbg projectID topics = (out, ops, some m) →
      mainLoop svc dbg i (env :: rest) = ⟨out, [m], 1, ops⟩) ∧
    (∀ out ops rout rops m, create svc dbg projectID topics = (out, ops, none) →
      displayResult svc dbg projectID = (rout, rops, some m) →
      mainLoop svc dbg i (env :: rest) = ⟨out ++ rout, [m], 1, ops ++ rops⟩) ∧
    (∀ out ops, create svc dbg projectID topics = (out, ops, none) →
      svc.reportClientOK projectID = false →
      mainLoop svc dbg i (env :: rest) =
        ⟨out ++ (mainLoop svc dbg (i + 1) rest).stdout,
         (mainLoop svc dbg (i + 1) rest).stderr,
         (mainLoop svc dbg (i + 1) rest).exitCode,
         ops ++ Op.connect projectID :: (mainLoop svc dbg (i + 1) rest).ops⟩) := by
  refine ⟨?_, ?_, ?_⟩
  · intro out ops m hc
    simp [mainLoop, hne, hparse, hc]
  · intro out ops rout rops m hc hd
    simp [mainLoop, hne, hparse, hc, hd]
  · intro out ops hc hrep
    have hd : displayResult svc dbg projectID = ([], [Op.connect projectID], none) := by
      simp [displayResult, hrep]
    simp [mainLoop, hne, hparse, hc, hd]

theorem error_propagation_witness :
    mainLoop topicFailService false 1 ["p,t"] =
      ⟨[], ["Unable to create topic t for project p"], 1,
       [Op.connect "p", Op.createTopic "p" "t"]⟩ :=
  (error_propagation topicFailService false 1 "p,t" [] "p" [("t", [])]
    (by decide) (by decide)).1 [] [Op.connect "p", Op.createTopic "p" "t"]
    "Unable to create topic t for project p" (by decide)

/-- Claim C7 is violated by the code: the duplicated shadowed inner loop of
displayResult prints the line of every subscription once per element of the
same list, so a topic with two subscriptions gets each line printed twice
instead of exactly once. -/
theorem reporter_duplicates_lines :
    (displayResult twoSubsService false "p").1 =
      ["  Subscription: s1 - Endpoint: \n", "  Subscription: s2 - Endpoint: \n",
       "  Subscription: s1 - Endpoint: \n", "  Subscription: s2 - Endpoint: \n"] ∧
    ((displayResult twoSubsService false "p").1.count
      "  Subscription: s1 - Endpoint: \n") = 2 := by
  decide

theorem createSubsOps_sound (svc : Service) (dbg : Bool) (p t : String)
    (subs : List String) :
    (∀ op ∈ (createSubsOps svc dbg p t subs).2.1, op.isDelete = false) ∧
    ((createSubsOps svc dbg p t subs).2.2 = none →
      ∀ op ∈ (createSubsOps svc dbg p t subs).2.1, opOK svc op = true) ∧
    (∀ m, (createSubsOps svc dbg p t subs).2.2 = some m → m ≠ "" ∧
      ∃ done bad, (createSubsOps svc dbg p t subs).2.1 = done ++ [bad] ∧
        (∀ op ∈ done, opOK svc op = true) ∧ opOK svc bad = false) := by
  induction subs with
  | nil =>
    refine ⟨?_, ?_, ?_⟩
    · intro op hop; simp [createSubsOps] at hop
    · intro _ op hop; simp [createSubsOps] at hop
    · intro m hm; simp [createSubsOps] at hm
  | cons s rest ih =>
    obtain ⟨ih1, ih2, ih3⟩ := ih
    by_cases hep : (decodeSubscription s).2 = ""
    · by_cases hok : svc.createSubOK p (decodeSubscription s).1 t "" = true
      · have h1 : (createSubsOps svc dbg p t (s :: rest)).2.1 =
            Op.createPullSub p (decodeSubscription s).1 t ::
              (createSubsOps svc dbg p t rest).2.1 := by
          simp [createSubsOps, hep, hok]
        have h2 : (createSubsOps svc dbg p t (s :: rest)).2.2 =
            (createSubsOps svc dbg p t rest).2.2 := by
          simp [createSubsOps, hep, hok]
        refine ⟨?_, ?_, ?_⟩
        · intro op hop
          rw [h1] at hop
          rcases List.mem_cons.mp hop with hop1 | hop2
          · subst hop1; simp [Op.isDelete]
          · exact ih1 op hop2
        · intro hnone op hop
          rw [h2] at hnone
          rw [h1] at hop
          rcases List.mem_cons.mp hop with hop1 | hop2
          · subst hop1; simp [opOK, hok]
          · exact ih2 hnone op hop2
        · intro m hm
          rw [h2] at hm
          obtain ⟨hmne, done, bad, hsp, hdone, hbad⟩ := ih3 m hm
          refine ⟨hmne, Op.createPullSub p (decodeSubscription s).1 t :: done, bad, ?_, ?_, hbad⟩
          · rw [h1, hsp]; rfl
          · intro op hop
            rcases List.mem_cons.mp hop with hop1 | hop2
            · subst hop1; simp [opOK, hok]
            · exact hdone op hop2
      · have h1 : (createSubsOps svc dbg p t (s :: rest)).2.1 =
            [Op.createPullSub p (decodeSubscription s).1 t] := by
          simp [createSubsOps, hep, hok]
        have h2 : (createSubsOps svc dbg p t (s :: rest)).2.2 =
            some ("Unable to create subscription " ++ (decodeSubscription s).1 ++
              " on topic " ++ t ++ " for project " ++ p) := by
          simp [createSubsOps, hep, hok]
        refine ⟨?_, ?_, ?_⟩
        · intro op hop
          rw [h1, List.mem_singleton] at hop
          subst hop; simp [Op.isDelete]
        · intro hnone op hop
          rw [h2] at hnone
          simp at hnone
        · intro m hm
          rw [h2] at hm
          have hmsg := Option.some.inj hm
          subst hmsg
          refine ⟨?_, [], Op.createPullSub p (decodeSubscription s).1 t, by simp [h1], ?_, ?_⟩
          · repeat apply append_ne_empty_left
            decide
          · intro op hop; simp at hop
          · simp [opOK, hok]
    · by_cases hok : svc.createSubOK p (decodeSubscription s).1 t
          ("http://" ++ (decodeSubscription s).2) = true
      · have h1 : (createSubsOps svc dbg p t (s :: rest)).2.1 =
            Op.createPushSub p (decodeSubscription s).1 t
              ("http://" ++ (decodeSubscription s).2) ::
              (createSubsOps svc dbg p t rest).2.1 := by
          simp [createSubsOps, hep, hok]
        have h2 : (createSubsOps svc dbg p t (s :: rest)).2.2 =
            (createSubsOps svc dbg p t rest).2.2 := by
          simp [createSubsOps, hep, hok]
        refine ⟨?_, ?_, ?_⟩
        · intro op hop
          rw [h1] at hop
          rcases List.mem_cons.mp hop with hop1 | hop2
          · subst hop1; simp [Op.isDelete]
          · exact ih1 op hop2
        · intro hnone op hop
          rw [h2] at hnone
          rw [h1] at hop
          rcases List.mem_cons.mp hop with hop1 | hop2
          · subst hop1; simp [opOK, hok]
          · exact ih2 hnone op hop2
        · intro m hm
          rw [h2] at hm
          obtain ⟨hmne, done, bad, hsp, hdone, hbad⟩ := ih3 m hm
          refine ⟨hmne, Op.createPushSub p (decodeSubscription s).1 t
            ("http://" ++ (decodeSubscription s).2) :: done, bad, ?_, ?_, hbad⟩
          · rw [h1, hsp]; rfl
          · intro op hop
            rcases List.mem_cons.mp hop with hop1 | hop2
            · subst hop1; simp [opOK, hok]
            · exact hdone op hop2
      · have h1 : (createSubsOps svc dbg p t (s :: rest)).2.1 =
            [Op.createPushSub p (decodeSubscription s).1 t
              ("http://" ++ (decodeSubscription s).2)] := by
          simp [createSubsOps, hep, hok]
        have h2 : (createSubsOps svc dbg p t (s :: rest)).2.2 =
            some ("Unable to create push subscription " ++ (decodeSubscription s).1 ++
              " on topic " ++ t ++ " for project " ++ p ++ " using push endpoint " ++
              (decodeSubscription s).2) := by
          simp [createSubsOps, hep, hok]
        refine ⟨?_, ?_, ?_⟩
        · intro op hop
          rw [h1, List.mem_singleton] at hop
          subst hop; simp [Op.isDelete]
        · intro hnone op hop
          rw [h2] at hnone
          simp at hnone
        · intro m hm
          rw [h2] at hm
          have hmsg := Option.some.inj hm
          subst hmsg
          refine ⟨?_, [], Op.createPushSub p (decodeSubscription s).1 t
            ("http://" ++ (decodeSubscription s).2), by simp [h1], ?_, ?_⟩
          · repeat apply append_ne_empty_left
            decide
          · intro op hop; simp at hop
          · simp [opOK, hok]

theorem createTopicsOps_sound (svc : Service) (dbg : Bool) (p : String)
    (ts : List (String × List String)) :
    (∀ op ∈ (createTopicsOps svc dbg p ts).2.1, op.isDelete = false) ∧
    ((createTopicsOps svc dbg p ts).2.2 = none →
      ∀ op ∈ (createTopicsOps svc dbg p ts).2.1, opOK svc op = true) ∧
    (∀ m, (createTopicsOps svc dbg p ts).2.2 = some m → m ≠ "" ∧
      ∃ done bad, (createTopicsOps svc dbg p ts).2.1 = done ++ [bad] ∧
        (∀ op ∈ done, opOK svc op = true) ∧ opOK svc bad = false) := by
  induction ts with
  | nil =>
    refine ⟨?_, ?_, ?_⟩
    · intro op hop; simp [createTopicsOps] at hop
    · intro _ op hop; simp [createTopicsOps] at hop
    · intro m hm; simp [createTopicsOps] at hm
  | cons tp rest ih =>
    obtain ⟨t, subs⟩ := tp
    obtain ⟨ih1, ih2, ih3⟩ := ih
    obtain ⟨is1, is2, is3⟩ := createSubsOps_sound svc dbg p t subs
    by_cases htop : svc.createTopicOK p t = true
    · rcases hrs : (createSubsOps svc dbg p t subs).2.2 with _ | m0
      · have h1 : (createTopicsOps svc dbg p ((t, subs) :: rest)).2.1 =
            Op.createTopic p t :: ((createSubsOps svc dbg p t subs).2.1 ++
              (createTopicsOps svc dbg p rest).2.1) := by
          simp [createTopicsOps, htop, hrs]
        have h2 : (createTopicsOps svc dbg p ((t, subs) :: rest)).2.2 =
            (createTopicsOps svc dbg p rest).2.2 := by
          simp [createTopicsOps, htop, hrs]
        refine ⟨?_, ?_, ?_⟩
        · intro op hop
          rw [h1] at hop
          rcases List.mem_cons.mp hop with hop1 | hop2
          · subst hop1; simp [Op.isDelete]
          · rcases List.mem_append.mp hop2 with hop3 | hop4
            · exact is1 op hop3
            · exact ih1 op hop4
        · intro hnone op hop
          rw [h2] at hnone
          rw [h1] at hop
          rcases List.mem_cons.mp hop with hop1 | hop2
          · subst hop1; simp [opOK, htop]
          · rcases List.mem_append.mp hop2 with hop3 | hop4
            · exact is2 hrs op hop3
            · exact ih2 hnone op hop4
        · intro m hm
          rw [h2] at hm
          obtain ⟨hmne, done, bad, hsp, hdone, hbad⟩ := ih3 m hm
          refine ⟨hmne, Op.createTopic p t :: ((createSubsOps svc dbg p t subs).2.1 ++ done),
            bad, ?_, ?_, hbad⟩
          · rw [h1, hsp]; simp
          · intro op hop
            rcases List.mem_cons.mp hop with hop1 | hop2
            · subst hop1; simp [opOK, htop]
            · rcases List.mem_append.mp hop2 with hop3 | hop4
              · exact is2 hrs op hop3
              · exact hdone op hop4
      · have h1 : (createTopicsOps svc dbg p ((t, subs) :: rest)).2.1 =
            Op.createTopic p t :: (createSubsOps svc dbg p t subs).2.1 := by
          simp [createTopicsOps, htop, hrs]
        have h2 : (createTopicsOps svc dbg p ((t, subs) :: rest)).2.2 = some m0 := by
          simp [createTopicsOps, htop, hrs]
        refine ⟨?_, ?_, ?_⟩
        · intro op hop
          rw [h1] at hop
          rcases List.mem_cons.mp hop with hop1 | hop2
          · subst hop1; simp [Op.isDelete]
          · exact is1 op hop2
        · intro hnone op hop
          rw [h2] at hnone
          simp at hnone
        · intro m hm
          rw [h2] at hm
          have hmsg := Option.some.inj hm
          subst hmsg
          obtain ⟨hmne, done, bad, hsp, hdone, hbad⟩ := is3 m0 hrs
          refine ⟨hmne, Op.createTopic p t :: done, bad, ?_, ?_, hbad⟩
          · rw [h1, hsp]; rfl
          · intro op hop
            rcases List.mem_cons.mp hop with hop1 | hop2
            · subst hop1; simp [opOK, htop]
            · exact hdone op hop2
    · have h1 : (createTopicsOps svc dbg p ((t, subs) :: rest)).2.1 =
          [Op.createTopic p t] := by
        simp [createTopicsOps, htop]
      have h2 : (createTopicsOps svc dbg p ((t, subs) :: rest)).2.2 =
          some ("Unable to create topic " ++ t ++ " for project " ++ p) := by
        simp [createTopicsOps, htop]
      refine ⟨?_, ?_, ?_⟩
      · intro op hop
        rw [h1, List.mem_singleton] at hop
        subst hop; simp [Op.isDelete]
      · intro hnone op hop
        rw [h2] at hnone
        simp at hnone
      · intro m hm
        rw [h2] at hm
        have hmsg := Option.some.inj hm
        subst hmsg
        refine ⟨?_, [], Op.createTopic p t, by simp [h1], ?_, ?_⟩
        · repeat apply append_ne_empty_left
          decide
        · intro op hop; simp at hop
        · simp [opOK, htop]

/-- Claim C8: create never issues a compensating delete; when everything
succeeds all issued calls succeeded, and when it fails it returns a
nonempty error after having issued exactly the successful calls plus the
single failing one - everything already created stays created. -/
theorem create_no_rollback (svc : Service) (dbg : Bool) (projectID : String)
    (topics : List (String × List String)) :
    (∀ op ∈ (create svc dbg projectID topics).2.1, op.isDelete = false) ∧
    ((create svc dbg projectID topics).2.2 = none →
      ∀ op ∈ (create svc dbg projectID topics).2.1, opOK svc op = true) ∧
    (∀ m, (create svc dbg projectID topics).2.2 = some m → m ≠ "" ∧
      ∃ done bad, (create svc dbg projectID topics).2.1 = done ++ [bad] ∧
        (∀ op ∈ done, opOK svc op = true) ∧ opOK svc bad = false) := by
  obtain ⟨it1, it2, it3⟩ := createTopicsOps_sound svc dbg projectID topics
  by_cases hcl : svc.newClientOK projectID = true
  · have h1 : (create svc dbg projectID topics).2.1 =
        Op.connect projectID :: (createTopicsOps svc dbg projectID topics).2.1 := by
      simp [create, hcl]
    have h2 : (create svc dbg projectID topics).2.2 =
        (createTopicsOps svc dbg projectID topics).2.2 := by
      simp [create, hcl]
    refine ⟨?_, ?_, ?_⟩
    · intro op hop
      rw [h1] at hop
      rcases List.mem_cons.mp hop with hop1 | hop2
      · subst hop1; simp [Op.isDelete]
      · exact it1 op hop2
    · intro hnone op hop
      rw [h2] at hnone
      rw [h1] at hop
      rcases List.mem_cons.mp hop with hop1 | hop2
      · subst hop1; simp [opOK, hcl]
      · exact it2 hnone op hop2
    · intro m hm
      rw [h2] at hm
      obtain ⟨hmne, done, bad, hsp, hdone, hbad⟩ := it3 m hm
      refine ⟨hmne, Op.connect projectID :: done, bad, ?_, ?_, hbad⟩
      · rw [h1, hsp]; rfl
      · intro op hop
        rcases List.mem_cons.mp hop with hop1 | hop2
        · subst hop1; simp [opOK, hcl]
        · exact hdone op hop2
  · have h1 : (create svc dbg projectID topics).2.1 = [Op.connect projectID] := by
      simp [create, hcl]
    have h2 : (create svc dbg projectID topics).2.2 =
        some ("Unable to create client to project " ++ projectID) := by
      simp [create, hcl]
    refine ⟨?_, ?_, ?_⟩
    · intro op hop
      rw [h1, List.mem_singleton] at hop
      subst hop; simp [Op.isDelete]
    · intro hnone op hop
      rw [h2] at hnone
      simp at hnone
    · intro m hm
      rw [h2] at hm
      have hmsg := Option.some.inj hm
      subst hmsg
      refine ⟨?_, [], Op.connect projectID, by simp [h1], ?_, ?_⟩
      · repeat apply append_ne_empty_left
        decide
      · intro op hop; simp at hop
      · simp [opOK, hcl]

theorem create_no_rollback_witness :
    "Unable to create topic t for project p" ≠ "" ∧
    ∃ done bad, (create topicFailService false "p" [("t", [])]).2.1 = done ++ [bad] ∧
      (∀ op ∈ done, opOK topicFailService op = true) ∧ opOK topicFailService bad = false :=
  (create_no_rollback topicFailService false "p" [("t", [])]).2.2
    "Unable to create topic t for project p" (by decide)

theorem mainLoop_cons_ok (svc : Service) (dbg : Bool) (i : Nat) (env : String)
    (rest : List String) (h : stepOKb svc dbg env = true) :
    mainLoop svc dbg i (env :: rest) =
      ⟨stepOut svc dbg env ++ (mainLoop svc dbg (i + 1) rest).stdout,
       (mainLoop svc dbg (i + 1) rest).stderr,
       (mainLoop svc dbg (i + 1) rest).exitCode,
       stepOps svc dbg env ++ (mainLoop svc dbg (i + 1) rest).ops⟩ := by
  unfold stepOKb at h
  by_cases hne : env = ""
  · simp [hne] at h
  · rw [if_neg hne] at h
    rcases hp : parseEnv env with _ | ⟨p, ts⟩
    · rw [hp] at h; simp at h
    · rw [hp] at h
      simp only [Bool.and_eq_true, Option.isNone_iff_eq_none] at h
      obtain ⟨hc2, hd2⟩ := h
      rcases hc : create svc dbg p ts with ⟨out, ops, ec⟩
      rcases hd : displayResult svc dbg p with ⟨rout, rops, ed⟩
      rw [hc] at hc2
      rw [hd] at hd2
      simp at hc2 hd2
      subst hc2
      subst hd2
      simp [mainLoop, hne, hp, hc, hd, stepOut, stepOps, List.append_assoc]

theorem mainLoop_all_ok (svc : Service) (dbg : Bool) (pre : List String) :
    ∀ i, 2 ≤ i → (∀ e ∈ pre, stepOKb svc dbg e = true) →
    mainLoop svc dbg i pre =
      ⟨(pre.map (stepOut svc dbg)).flatten, [], 0, (pre.map (stepOps svc dbg)).flatten⟩ := by
  induction pre with
  | nil =>
    intro i hi _
    have hi1 : i ≠ 1 := by omega
    simp [mainLoop, hi1]
  | cons e pre ih =>
    intro i hi hok
    rw [mainLoop_cons_ok svc dbg i e pre (hok e (List.mem_cons_self e pre))]
    rw [ih (i + 1) (by omega) (fun x hx => hok x (List.mem_cons_of_mem e hx))]
    simp

/-- Claim C9: the loop consumes the numbered variables in increasing order
from 1: when the first variable is absent it prints the usage text and
exits with status 1, and when every present variable processes cleanly the
run exits with status 0 after producing exactly the output and the calls of
those variables, in order. -/
theorem main_scan_order (svc : Service) (dbg : Bool) (env : String) (pre : List String)
    (hok : ∀ e ∈ env :: pre, stepOKb svc dbg e = true) :
    runMain svc dbg [] = ⟨[usageText], [], 1, []⟩ ∧
    runMain svc dbg (env :: pre) =
      ⟨((env :: pre).map (stepOut svc dbg)).flatten, [], 0,
       ((env :: pre).map (stepOps svc dbg)).flatten⟩ := by
  refine ⟨by simp [runMain, mainLoop], ?_⟩
  unfold runMain
  rw [mainLoop_cons_ok svc dbg 1 env pre (hok env (List.mem_cons_self env pre))]
  rw [mainLoop_all_ok svc dbg pre 2 (by omega) (fun x hx => hok x (List.mem_cons_of_mem env hx))]
  simp

theorem main_scan_order_witness :
    runMain allOKService false [] = ⟨[usageText], [], 1, []⟩ ∧
    runMain allOKService false ["p,t"] =
      ⟨((["p,t"]).map (stepOut allOKService false)).flatten, [], 0,
       ((["p,t"]).map (stepOps allOKService false)).flatten⟩ :=
  main_scan_order allOKService false "p,t" [] (by decide)

/-- Claim C10: an environment variable set to the empty string behaves
exactly like an unset one - the scan of the list of values stops there as
if the list ended, and when it is the very first variable the usage text is
printed and the exit status is 1. -/
theorem empty_env_terminates_scan (svc : Service) (dbg : Bool) :
    (∀ (i : Nat) (pre suffix : List String),
      mainLoop svc dbg i (pre ++ "" :: suffix) = mainLoop svc dbg i pre) ∧
    (∀ suffix : List String,
      runMain svc dbg ("" :: suffix) = ⟨[usageText], [], 1, []⟩) := by
  constructor
  · intro i pre suffix
    induction pre generalizing i with
    | nil => simp [mainLoop]
    | cons e pre ih =>
      by_cases he : e = ""
      · subst he; simp [mainLoop]
      · rcases hp : parseEnv e with _ | ⟨p, ts⟩
        · simp [mainLoop, he, hp]
        · rcases hc : create svc dbg p ts with ⟨out, ops, ec⟩
          cases ec with
          | some m => simp [mainLoop, he, hp, hc]
          | none =>
            rcases hd : displayResult svc dbg p with ⟨rout, rops, ed⟩
            cases ed with
            | some m => simp [mainLoop, he, hp, hc, hd]
            | none => simp [mainLoop, he, hp, hc, hd, ih]
  · intro suffix
    simp [runMain, mainLoop]

end Pubsubc
